import Mathlib

/-!
Shallow embedding of `spec.go` (package `spec`): a transformer from a parsed
OpenAPI/Swagger document into a flattened `Design` value.

Go maps are modelled as association lists (a `nil` map and an empty map both
become `[]`), Go slices as lists, nil-able Go pointers as `Option`, and Go
functions that can dereference a nil pointer (panic) return `Except String`.
The in-place mutation that `traverse` performs on shared schema nodes
(`property.Value.Title = key`, `property.Value.Nullable = ...`) is modelled by
explicit state passing: `traverse` returns both the emitted parameter records
and the post-mutation schema, and the document-level functions thread the
updated document through.
-/

namespace SpecGo

/-- A schema node of the source document graph, mirroring the
`openapi3.Schema` fields that `spec.go` reads and writes: `Title`, `Type`,
`Description`, `Nullable`, `Required` (the required-property-name list),
`Properties` and `Items`. -/
inductive Schema where
  | mk (title ty descr : String) (nullable : Bool) (required : List String)
      (properties : List (String × Schema)) (items : Option Schema)
deriving Repr

mutual

/-- Decidable equality for the nested `Schema` inductive (the automatic
derivation does not handle the nesting). -/
def decEqSchema (a b : Schema) : Decidable (a = b) :=
  match a, b with
  | .mk t1 y1 d1 n1 r1 p1 i1, .mk t2 y2 d2 n2 r2 p2 i2 =>
    haveI : Decidable (p1 = p2) := decEqProps p1 p2
    haveI : Decidable (i1 = i2) := decEqItems i1 i2
    decidable_of_iff (t1 = t2 ∧ y1 = y2 ∧ d1 = d2 ∧ n1 = n2 ∧ r1 = r2 ∧ p1 = p2 ∧ i1 = i2)
      (by rw [Schema.mk.injEq])
termination_by structural a

def decEqProps (a b : List (String × Schema)) : Decidable (a = b) :=
  match a, b with
  | [], [] => isTrue rfl
  | [], _ :: _ => isFalse (by simp)
  | _ :: _, [] => isFalse (by simp)
  | (k1, s1) :: r1, (k2, s2) :: r2 =>
    haveI : Decidable (s1 = s2) := decEqSchema s1 s2
    haveI : Decidable (r1 = r2) := decEqProps r1 r2
    decidable_of_iff (k1 = k2 ∧ s1 = s2 ∧ r1 = r2) (by simp [Prod.ext_iff]; tauto)
termination_by structural a

def decEqItems (a b : Option Schema) : Decidable (a = b) :=
  match a, b with
  | none, none => isTrue rfl
  | none, some _ => isFalse (by simp)
  | some _, none => isFalse (by simp)
  | some s1, some s2 =>
    haveI : Decidable (s1 = s2) := decEqSchema s1 s2
    decidable_of_iff (s1 = s2) (by simp)
termination_by structural a

end

instance : DecidableEq Schema := decEqSchema

def Schema.title : Schema → String
  | .mk t _ _ _ _ _ _ => t

def Schema.ty : Schema → String
  | .mk _ ty _ _ _ _ _ => ty

def Schema.descr : Schema → String
  | .mk _ _ d _ _ _ _ => d

def Schema.nullable : Schema → Bool
  | .mk _ _ _ n _ _ _ => n

def Schema.required : Schema → List String
  | .mk _ _ _ _ r _ _ => r

def Schema.properties : Schema → List (String × Schema)
  | .mk _ _ _ _ _ p _ => p

def Schema.items : Schema → Option Schema
  | .mk _ _ _ _ _ _ i => i

/-- The flat output record (`spec.Parameter`). -/
structure Parameter where
  parent : String := ""
  name : String := ""
  location : String := ""
  dataType : String := ""
  required : Bool := false
  description : String := ""
deriving Repr, DecidableEq

/-- `strings.ToLower`, written as a character-wise map over the string's
character list so that the kernel can evaluate it (the standard library's
`String.toLower` recurses on byte positions and does not reduce). -/
def lower (s : String) : String :=
  String.mk (s.data.map Char.toLower)

/-- `spec.contains`: linear scan of a string slice. -/
def contains (array : List String) (key : String) : Bool :=
  array.any (fun value => value == key)

/-- `spec.setNode`: builds the record for an object/array node from the
node's (possibly already mutated) title/type/nullable/description. -/
def setNode (schema : Schema) : Parameter :=
  { name := schema.title, dataType := lower schema.ty, location := "body",
    required := !schema.nullable, description := schema.descr }

/-- `spec.setPlain`: identical projection, used for scalar leaves. -/
def setPlain (schema : Schema) : Parameter :=
  { name := schema.title, dataType := lower schema.ty, location := "body",
    required := !schema.nullable, description := schema.descr }

/-- The comparator key of the `sort.Slice` calls in `traverse`: a property
whose (verbatim) type is `object` or `array` sorts after every other
property. -/
def isComposite (s : Schema) : Bool :=
  s.ty == "object" || s.ty == "array"

mutual

/-- `spec.traverse`, with the two in-place writes the Go code performs on
each property (`Title = key`, `Nullable = !contains(required, key)`) passed
as the `title`/`nb` arguments instead of being written into the child before
the recursive call; the returned `Schema` is the post-mutation node, so the
writes are still observable.  The `sort.Slice` partition (scalars before
composite properties) is modelled by emitting the records of non-composite
children first; within each part the (unordered Go map) iteration order is
kept.  An array node without an item schema is unreachable for a validated
document (the source would dereference a nil `Items`); the model emits
nothing there. -/
def traverseT (s : Schema) (title : String) (nb : Bool) (parent : String) :
    List Parameter × Schema :=
  match s with
  | .mk _ ty descr _ required props items =>
    let cur : Schema := .mk title ty descr nb required props items
    if lower ty = "object" then
      let node : Parameter := { setNode cur with parent := parent }
      let results := traverseList props required title
      let scalars := results.filter (fun e => !(isComposite e.1.2))
      let comps := results.filter (fun e => isComposite e.1.2)
      (node :: ((scalars ++ comps).map (fun e => e.2)).flatten,
       .mk title ty descr nb required (results.map (fun e => e.1)) items)
    else if lower ty = "array" then
      match items with
      | none => ([], cur)
      | some (.mk it1 it2 it3 it4 itreq itprops ititems) =>
        let node : Parameter :=
          { setNode cur with parent := parent, dataType := "array[" ++ it2 ++ "]" }
        if it2 == "object" then
          let results := traverseList itprops itreq title
          let scalars := results.filter (fun e => !(isComposite e.1.2))
          let comps := results.filter (fun e => isComposite e.1.2)
          (node :: ((scalars ++ comps).map (fun e => e.2)).flatten,
           .mk title ty descr nb required props
             (some (.mk it1 it2 it3 it4 itreq (results.map (fun e => e.1)) ititems)))
        else ([node], cur)
    else if lower ty = "string" ∨ lower ty = "number" ∨ lower ty = "integer" ∨
        lower ty = "boolean" then
      ([{ setPlain cur with parent := parent }], cur)
    else ([], cur)
termination_by structural s

/-- The per-property loop bodies of `traverse`: for each property `(k, p)`
perform the two writes (modelled as the `title`/`nb` arguments of
`traverseT`) and recurse; returns, per property, the post-mutation child
(with its key) and the child's emitted records. -/
def traverseList (l : List (String × Schema)) (required : List String) (parent : String) :
    List ((String × Schema) × List Parameter) :=
  match l with
  | [] => []
  | (k, p) :: rest =>
    let r := traverseT p k (!(contains required k)) parent
    ((k, r.2), r.1) :: traverseList rest required parent
termination_by structural l

end

/-- Entry point used by the body extractors: `traverse(schema, parent)` with
the node's own current title/nullable (the root node is not re-titled by any
caller). -/
def traverse (s : Schema) (parent : String) : List Parameter × Schema :=
  traverseT s s.title s.nullable parent

/-! ## The source document graph

The parts of the `openapi3.Swagger` object graph that `spec.go` reads.  Go
maps become association lists; the nine per-method operation pointers of a
path item become `Option` fields.  Fields the Go code dereferences without a
nil check and that a validated document always populates (a parameter's
schema, a media type's schema, a header's schema) are modelled as plain
fields holding the data the code extracts from them. -/

/-- One entry of `Components.SecuritySchemes` (`value.Value` after the ref
indirection): the fields `getAuthentication` reads. -/
structure SecurityScheme where
  ty : String
  name : String
  inLoc : String
  descr : String
deriving Repr, DecidableEq

/-- One declared parameter (`value.Value` of a `ParameterRef`): the fields
`getParameter`/`getPathParameter` read.  `schemaType` is
`value.Value.Schema.Value.Type`. -/
structure ParamDecl where
  name : String
  inLoc : String
  schemaType : String
  required : Bool
  descr : String
deriving Repr, DecidableEq

/-- One response-header declaration (`header.Value`): the fields
`getRsHeader` reads; `schemaType` is `header.Value.Schema.Value.Type`. -/
structure HeaderDecl where
  schemaType : String
  required : Bool
  descr : String
deriving Repr, DecidableEq

/-- One media type of a request/response `Content` map.  `examples` maps
each example name to the serialized form of its literal value (the result of
the `json.Marshal(value.Value.Value)` call in the source). -/
structure MediaType where
  schema : Schema
  examples : List (String × String)
deriving Repr, DecidableEq

/-- `openapi3.RequestBodyRef`'s payload: the `Content` map. -/
structure RequestBody where
  content : List (String × MediaType)
deriving Repr, DecidableEq

/-- `openapi3.ResponseRef`'s payload: the `Headers` and `Content` maps. -/
structure Response where
  headers : List (String × HeaderDecl)
  content : List (String × MediaType)
deriving Repr, DecidableEq

/-- One `openapi3.Operation`: the fields `spec.go` reads. -/
structure Operation where
  summary : String
  descr : String
  parameters : List ParamDecl
  requestBody : Option RequestBody
  responses : List (String × Response)
deriving Repr, DecidableEq

/-- One `openapi3.PathItem`: the path-level parameter list plus the nine
fixed per-method operation pointers (`Operations()` enumerates the non-nil
ones). -/
structure PathItem where
  parameters : List ParamDecl := []
  connect : Option Operation := none
  delete : Option Operation := none
  get : Option Operation := none
  head : Option Operation := none
  options : Option Operation := none
  patch : Option Operation := none
  post : Option Operation := none
  put : Option Operation := none
  trace : Option Operation := none
deriving Repr, DecidableEq

/-- Document-level `Info`. -/
structure InfoSrc where
  title : String
  version : String
  descr : String
deriving Repr, DecidableEq

/-- The `openapi3.Swagger` document: info, the paths map, and the
security-scheme declarations of `Components`. -/
structure Swagger where
  info : InfoSrc
  paths : List (String × PathItem)
  securitySchemes : List (String × SecurityScheme)
deriving Repr, DecidableEq

/-- Go map indexing / `Paths.Find`: first entry with the given key. -/
def lookup {α : Type} (l : List (String × α)) (key : String) : Option α :=
  match l with
  | [] => none
  | kv :: rest => if kv.1 == key then some kv.2 else lookup rest key

/-- Replace the value stored under `key` (Go map assignment on an existing
key). -/
def setAssoc {α : Type} (l : List (String × α)) (key : String) (v : α) :
    List (String × α) :=
  l.map (fun kv => if kv.1 == key then (key, v) else kv)

/-- The operation field a lowercased method name selects. -/
def opField (pi : PathItem) (mLower : String) : Option Operation :=
  match mLower with
  | "get" => pi.get
  | "post" => pi.post
  | "put" => pi.put
  | "patch" => pi.patch
  | "delete" => pi.delete
  | _ => none

/-- The per-HTTP-method dispatch that every extractor of `spec.go` repeats:
`pathItem := swagger.Paths.Find(endpoint)` followed by
`switch strings.ToLower(method)` selecting one of the five supported
operation fields.  In the supported cases the source dereferences the path
item and the operation pointer, so a missing path or operation is a panic
(`Except.error`); any other method hits the `default: return nil` branch
before any dereference (`.ok none`). -/
def operationOf (doc : Swagger) (endpoint m : String) : Except String (Option Operation) :=
  match lower m with
  | "get" | "post" | "put" | "patch" | "delete" =>
    match lookup doc.paths endpoint with
    | none => .error "nil pointer dereference"
    | some pi =>
      match opField pi (lower m) with
      | none => .error "nil pointer dereference"
      | some op => .ok (some op)
  | _ => .ok none

/-- The record `getAuthentication` builds for one security scheme: always
required, `DataType` the scheme's `Type`, `Location` its `In`, all copied
verbatim. -/
def authRec (kv : String × SecurityScheme) : Parameter :=
  { parent := "", name := kv.2.name, location := kv.2.inLoc, dataType := kv.2.ty,
    required := true, description := kv.2.descr }

/-- `spec.getAuthentication`: one always-required record per declared
security scheme. -/
def getAuthentication (doc : Swagger) : List Parameter :=
  doc.securitySchemes.map authRec

/-- `spec.getPathParameter`: projects the path-level parameter list of
`Paths.Find(endpoint)` (dereferenced without a nil check), with no location
filter and no lowercasing. -/
def getPathParameter (doc : Swagger) (endpoint : String) : Except String (List Parameter) :=
  match lookup doc.paths endpoint with
  | none => .error "nil pointer dereference"
  | some pi =>
    .ok (pi.parameters.map (fun v =>
      { parent := "", name := v.name, location := v.inLoc, dataType := v.schemaType,
        required := v.required, description := v.descr }))

/-- `spec.getParameter`: the operation's own declared parameters whose `In`
matches the requested location case-insensitively, with location and schema
type lowercased in the emitted record. -/
def getParameter (doc : Swagger) (endpoint m location : String) :
    Except String (List Parameter) :=
  match operationOf doc endpoint m with
  | .error e => .error e
  | .ok none => .ok []
  | .ok (some op) =>
    .ok ((op.parameters.filter (fun v => lower v.inLoc == lower location)).map
      (fun v => { parent := "", name := v.name, location := lower v.inLoc,
                  dataType := lower v.schemaType, required := v.required,
                  description := v.descr }))

/-- The records `traverse` emits for each media type of a content map
(`content[key] = traverse(value.Schema, "root")`). -/
def traverseContentRecords (content : List (String × MediaType)) :
    List (String × List Parameter) :=
  content.map (fun kv => (kv.1, (traverse kv.2.schema "root").1))

/-- The post-mutation content map: each media type's schema replaced by the
schema state `traverse` leaves behind. -/
def traverseContentPost (content : List (String × MediaType)) :
    List (String × MediaType) :=
  content.map (fun kv => (kv.1, { kv.2 with schema := (traverse kv.2.schema "root").2 }))

/-- Replace one path item of the document (the in-place mutation of the
shared graph, localized to the endpoint being processed). -/
def updatePath (doc : Swagger) (endpoint : String) (f : PathItem → PathItem) : Swagger :=
  { doc with paths := doc.paths.map (fun kv => if kv.1 == endpoint then (kv.1, f kv.2) else kv) }

/-- Store an updated operation back into the field the method selected. -/
def setOp (pi : PathItem) (m : String) (op : Operation) : PathItem :=
  match lower m with
  | "get" => { pi with get := some op }
  | "post" => { pi with post := some op }
  | "put" => { pi with put := some op }
  | "patch" => { pi with patch := some op }
  | "delete" => { pi with delete := some op }
  | _ => pi

/-- `spec.getRqBody`: flattens every media type of the request body; a
missing request body yields the nil map (`.ok ([], doc)`).  The second
component is the document after `traverse`'s mutation of the body schemas. -/
def getRqBody (doc : Swagger) (endpoint m : String) :
    Except String (List (String × List Parameter) × Swagger) :=
  match operationOf doc endpoint m with
  | .error e => .error e
  | .ok none => .ok ([], doc)
  | .ok (some op) =>
    match op.requestBody with
    | none => .ok ([], doc)
    | some rb =>
      .ok (traverseContentRecords rb.content,
           updatePath doc endpoint (fun pi => setOp pi m
             { op with requestBody := some { content := traverseContentPost rb.content } }))

/-- `spec.getRqBodyExample`: request-body examples grouped by media type;
a media type with no examples never receives an entry (the
`example[contentType] = exampleItem` assignment sits inside the loop over
examples). -/
def getRqBodyExample (doc : Swagger) (endpoint m : String) :
    Except String (List (String × List (String × String))) :=
  match operationOf doc endpoint m with
  | .error e => .error e
  | .ok none => .ok []
  | .ok (some op) =>
    match op.requestBody with
    | none => .ok []
    | some rb =>
      .ok (rb.content.filterMap (fun kv =>
        if kv.2.examples.isEmpty then none else some (kv.1, kv.2.examples)))

/-- `spec.getRsHeader`: the headers of the response declared under status
`"200"`.  The source reads `Responses["200"].Value.Headers` with no nil
check, so an operation without a `"200"` response is a nil-pointer panic
(`Except.error`) — unlike `getRsBody`, which checks `body == nil`. -/
def getRsHeader (doc : Swagger) (endpoint m : String) : Except String (List Parameter) :=
  match operationOf doc endpoint m with
  | .error e => .error e
  | .ok none => .ok []
  | .ok (some op) =>
    match lookup op.responses "200" with
    | none => .error "nil pointer dereference"
    | some resp =>
      .ok (resp.headers.map (fun kv =>
        { parent := "", name := kv.1, location := "header", dataType := kv.2.schemaType,
          required := kv.2.required, description := kv.2.descr }))

/-- `spec.getRsBody`: flattens every media type of the `"200"` response's
content; a missing `"200"` response is caught by the `if body == nil` check
and yields the nil map.  The second component is the document after the
mutation of the response schemas. -/
def getRsBody (doc : Swagger) (endpoint m : String) :
    Except String (List (String × List Parameter) × Swagger) :=
  match operationOf doc endpoint m with
  | .error e => .error e
  | .ok none => .ok ([], doc)
  | .ok (some op) =>
    match lookup op.responses "200" with
    | none => .ok ([], doc)
    | some resp =>
      let post : Response := { resp with content := traverseContentPost resp.content }
      .ok (traverseContentRecords resp.content,
           updatePath doc endpoint (fun pi => setOp pi m
             { op with responses := setAssoc op.responses "200" post }))

/-- Go map assignment `exampleItem[key] = marshalled`: replace an existing
key, otherwise append. -/
def insertRep (l : List (String × String)) (k v : String) : List (String × String) :=
  if l.any (fun kv => kv.1 == k) then l.map (fun kv => if kv.1 == k then (k, v) else kv)
  else l ++ [(k, v)]

/-- The inner loops of `getRsBodyExample`: one merged example map per
status, accumulated across all media types of the status (a later media
type's example overwrites an earlier one with the same name). -/
def mergeExamples (content : List (String × MediaType)) : List (String × String) :=
  content.foldl (fun acc kv => kv.2.examples.foldl (fun acc2 e => insertRep acc2 e.1 e.2) acc) []

/-- `spec.getRsBodyExample`: examples grouped by HTTP status code, merged
across media types; a status with no examples never receives an entry. -/
def getRsBodyExample (doc : Swagger) (endpoint m : String) :
    Except String (List (String × List (String × String))) :=
  match operationOf doc endpoint m with
  | .error e => .error e
  | .ok none => .ok []
  | .ok (some op) =>
    .ok (op.responses.filterMap (fun sv =>
      let merged := mergeExamples sv.2.content
      if merged.isEmpty then none else some (sv.1, merged)))

/-! ## The output model and the assemblers -/

/-- `spec.ResourceContent`. -/
structure ResourceContent where
  rqHeader : List Parameter := []
  rqPath : List Parameter := []
  rqQuery : List Parameter := []
  rqBody : List (String × List Parameter) := []
  rqBodyExample : List (String × List (String × String)) := []
  rsHeader : List Parameter := []
  rsBody : List (String × List Parameter) := []
  rsBodyExample : List (String × List (String × String)) := []
deriving Repr, DecidableEq

/-- `spec.Resource`. -/
structure Resource where
  resourceDefinition : String := ""
  descr : String := ""
  endpoint : String := ""
  transportProtocol : String := ""
  requestVerb : String := ""
  content : ResourceContent := {}
deriving Repr, DecidableEq

/-- `spec.Info`. -/
structure Info where
  title : String
  version : String
  descr : String
deriving Repr, DecidableEq

/-- `spec.Design`. -/
structure Design where
  info : Info
  resources : List Resource
deriving Repr, DecidableEq

/-- `openapi3.PathItem.Operations()`: the non-nil operation fields keyed by
the upper-case method names of `net/http`. -/
def operationsOf (pi : PathItem) : List (String × Operation) :=
  [("CONNECT", pi.connect), ("DELETE", pi.delete), ("GET", pi.get), ("HEAD", pi.head),
   ("OPTIONS", pi.options), ("PATCH", pi.patch), ("POST", pi.post), ("PUT", pi.put),
   ("TRACE", pi.trace)].filterMap (fun kv => kv.2.map (fun op => (kv.1, op)))

/-- `spec.getResource`: one skeleton Resource per path × declared
operation, verb lowercased, transport protocol constantly `"HTTPS"`. -/
def getResource (doc : Swagger) : List Resource :=
  (doc.paths.map (fun pv => (operationsOf pv.2).map (fun mo =>
    ({ resourceDefinition := mo.2.summary, descr := mo.2.descr, endpoint := pv.1,
       transportProtocol := "HTTPS", requestVerb := lower mo.1,
       content := {} } : Resource)))).flatten

/-- The body of the `for _, resource := range resources` loop of
`spec.getResourceContent`: fill one resource's content, threading the
document state mutated by the body flatteners. -/
def fillResource (doc : Swagger) (r : Resource) : Except String (Resource × Swagger) := do
  let rqAuth := getAuthentication doc
  let rqHeaderAuth := rqAuth.filter (fun p => p.location == "header")
  let rqQueryAuth := rqAuth.filter (fun p => p.location == "query")
  let rqPath ← getPathParameter doc r.endpoint
  let rqHeader ← getParameter doc r.endpoint r.requestVerb "header"
  let rqQuery ← getParameter doc r.endpoint r.requestVerb "query"
  let rqBodyRes ← getRqBody doc r.endpoint r.requestVerb
  let rqBodyExample ← getRqBodyExample rqBodyRes.2 r.endpoint r.requestVerb
  let rsHeader ← getRsHeader rqBodyRes.2 r.endpoint r.requestVerb
  let rsBodyRes ← getRsBody rqBodyRes.2 r.endpoint r.requestVerb
  let rsBodyExample ← getRsBodyExample rsBodyRes.2 r.endpoint r.requestVerb
  .ok ({ r with content :=
          { rqHeader := rqHeaderAuth ++ rqHeader, rqPath := rqPath,
            rqQuery := rqQueryAuth ++ rqQuery, rqBody := rqBodyRes.1,
            rqBodyExample := rqBodyExample, rsHeader := rsHeader,
            rsBody := rsBodyRes.1, rsBodyExample := rsBodyExample } },
        rsBodyRes.2)

/-- `spec.getResourceContent`: fill every resource in order, threading the
mutated document. -/
def getResourceContent (doc : Swagger) (resources : List Resource) :
    Except String (List Resource × Swagger) :=
  match resources with
  | [] => .ok ([], doc)
  | r :: rest => do
    let head ← fillResource doc r
    let tail ← getResourceContent head.2 rest
    .ok (head.1 :: tail.1, tail.2)

/-- `spec.getInfo`. -/
def getInfo (doc : Swagger) : Info :=
  { title := doc.info.title, version := doc.info.version, descr := doc.info.descr }

/-- `spec.Transform`: the whole pipeline.  The result carries the final
document state so that the source's in-place mutation of the input graph
stays observable; a nil-pointer panic of the source surfaces as
`Except.error`. -/
def Transform (doc : Swagger) : Except String (Design × Swagger) := do
  let filled ← getResourceContent doc (getResource doc)
  .ok ({ info := getInfo doc, resources := filled.1 }, filled.2)

end SpecGo

deriving instance DecidableEq for Except

namespace SpecGo

/-! ## Unfolding lemmas for `traverseT` -/

/-- Definitional unfolding of `traverseT`, stated once so the case lemmas
below follow by ordinary `if` rewriting. -/
theorem traverseT_eq (ti ty d : String) (nu : Bool) (req : List String)
    (props : List (String × Schema)) (items : Option Schema)
    (t : String) (n : Bool) (p : String) :
    traverseT (.mk ti ty d nu req props items) t n p =
      (if lower ty = "object" then
        ({ parent := p, name := t, location := "body", dataType := lower ty,
           required := !n, description := d } ::
          (((traverseList props req t).filter (fun e => !(isComposite e.1.2)) ++
            (traverseList props req t).filter (fun e => isComposite e.1.2)).map
              (fun e => e.2)).flatten,
         .mk t ty d n req ((traverseList props req t).map (fun e => e.1)) items)
      else if lower ty = "array" then
        match items with
        | none => ([], .mk t ty d n req props items)
        | some (.mk it1 it2 it3 it4 itreq itprops ititems) =>
          if it2 == "object" then
            ({ parent := p, name := t, location := "body",
               dataType := "array[" ++ it2 ++ "]", required := !n, description := d } ::
              (((traverseList itprops itreq t).filter (fun e => !(isComposite e.1.2)) ++
                (traverseList itprops itreq t).filter (fun e => isComposite e.1.2)).map
                  (fun e => e.2)).flatten,
             .mk t ty d n req props
               (some (.mk it1 it2 it3 it4 itreq
                 ((traverseList itprops itreq t).map (fun e => e.1)) ititems)))
          else
            ([{ parent := p, name := t, location := "body",
                dataType := "array[" ++ it2 ++ "]", required := !n, description := d }],
             .mk t ty d n req props items)
      else if lower ty = "string" ∨ lower ty = "number" ∨ lower ty = "integer" ∨
          lower ty = "boolean" then
        ([{ parent := p, name := t, location := "body", dataType := lower ty,
            required := !n, description := d }],
         .mk t ty d n req props items)
      else ([], .mk t ty d n req props items)) := by
  rw [traverseT.eq_def]
  rfl

/-- `traverseT` on an object-typed node: the node's own record first, then
the flattened non-composite properties, then the flattened composite
properties; the post-state carries the overridden title/nullable and the
mutated property list. -/
theorem traverseT_object (ti ty d : String) (nu : Bool) (req : List String)
    (props : List (String × Schema)) (items : Option Schema)
    (t : String) (n : Bool) (p : String) (h : lower ty = "object") :
    traverseT (.mk ti ty d nu req props items) t n p =
      ({ parent := p, name := t, location := "body", dataType := lower ty,
         required := !n, description := d } ::
        (((traverseList props req t).filter (fun e => !(isComposite e.1.2)) ++
          (traverseList props req t).filter (fun e => isComposite e.1.2)).map
            (fun e => e.2)).flatten,
       .mk t ty d n req ((traverseList props req t).map (fun e => e.1)) items) := by
  rw [traverseT_eq, if_pos h]

/-- `traverseT` on a scalar-typed node: exactly one record, no recursion,
post-state unchanged apart from the overridden title/nullable. -/
theorem traverseT_scalar (ti ty d : String) (nu : Bool) (req : List String)
    (props : List (String × Schema)) (items : Option Schema)
    (t : String) (n : Bool) (p : String)
    (h : lower ty = "string" ∨ lower ty = "number" ∨ lower ty = "integer" ∨
         lower ty = "boolean") :
    traverseT (.mk ti ty d nu req props items) t n p =
      ([{ parent := p, name := t, location := "body", dataType := lower ty,
          required := !n, description := d }],
       .mk t ty d n req props items) := by
  rcases h with h | h | h | h <;>
    rw [traverseT_eq, if_neg (by simp [h]), if_neg (by simp [h]), if_pos (by simp [h])]

/-- `traverseT` on an array-typed node whose item schema is not
object-typed: exactly one record with the synthesized `array[...]` tag, the
item type copied verbatim. -/
theorem traverseT_array_plain (ti ty d : String) (nu : Bool) (req : List String)
    (props : List (String × Schema))
    (it1 it2 it3 : String) (it4 : Bool) (itreq : List String)
    (itprops : List (String × Schema)) (ititems : Option Schema)
    (t : String) (n : Bool) (p : String)
    (h : lower ty = "array") (hit : (it2 == "object") = false) :
    traverseT (.mk ti ty d nu req props (some (.mk it1 it2 it3 it4 itreq itprops ititems)))
        t n p =
      ([{ parent := p, name := t, location := "body",
          dataType := "array[" ++ it2 ++ "]", required := !n, description := d }],
       .mk t ty d n req props (some (.mk it1 it2 it3 it4 itreq itprops ititems))) := by
  rw [traverseT_eq, if_neg (by simp [h]), if_pos h]
  simp only [hit, Bool.false_eq_true, if_false]

/-- `traverseT` on an array-typed node whose item schema is object-typed:
the array's own record followed by the item schema's flattened properties
(partitioned the same way, attached under the array's name), with no
intermediate record for the item schema itself. -/
theorem traverseT_array_object (ti ty d : String) (nu : Bool) (req : List String)
    (props : List (String × Schema))
    (it1 it3 : String) (it4 : Bool) (itreq : List String)
    (itprops : List (String × Schema)) (ititems : Option Schema)
    (t : String) (n : Bool) (p : String) (h : lower ty = "array") :
    traverseT (.mk ti ty d nu req props (some (.mk it1 "object" it3 it4 itreq itprops ititems)))
        t n p =
      ({ parent := p, name := t, location := "body",
         dataType := "array[" ++ "object" ++ "]", required := !n, description := d } ::
        (((traverseList itprops itreq t).filter (fun e => !(isComposite e.1.2)) ++
          (traverseList itprops itreq t).filter (fun e => isComposite e.1.2)).map
            (fun e => e.2)).flatten,
       .mk t ty d n req props
         (some (.mk it1 "object" it3 it4 itreq
           ((traverseList itprops itreq t).map (fun e => e.1)) ititems))) := by
  rw [traverseT_eq, if_neg (by simp [h]), if_pos h]
  simp

end SpecGo

namespace SpecGo

/-! ## Concrete schemas and documents used by the claim theorems -/

/-- The claim's empty operation: no parameters, no request body, no declared
responses. -/
def emptyOp : Operation :=
  { summary := "", descr := "", parameters := [], requestBody := none, responses := [] }

/-- A document whose single `GET /empty` operation declares no responses. -/
def docNo200 : Swagger :=
  { info := ⟨"t", "v", ""⟩, paths := [("/empty", { get := some emptyOp })],
    securitySchemes := [] }

/-- The §8 example schema `a: {b: string, c: {d: number}}`, with the
composite property `c` listed before the scalar `b` so that the
scalars-first partition is visible in the output order. -/
def schemaA : Schema :=
  .mk "a" "object" "" false []
    [("c", .mk "" "object" "" false [] [("d", .mk "" "number" "" false [] [] none)] none),
     ("b", .mk "" "string" "" false [] [] none)] none

/-- The §8 required-propagation example: required-list `["id"]` on an object
with properties `id` and `name`. -/
def schemaReq : Schema :=
  .mk "o" "object" "" false ["id"]
    [("id", .mk "" "integer" "" false [] [] none),
     ("name", .mk "" "string" "" false [] [] none)] none

/-! ## C1 -/

/-- C1: the claim that missing optional structures never cause a failure is
contradicted by the code.  On an operation with no parameters, no request
body and no declared responses — the claim's own example — `getRsHeader`
reads `Responses["200"].Value.Headers` without a nil check, dereferences the
nil `*ResponseRef` and panics, so the whole transformation fails; the
sibling `getRsBody` guards the same lookup with `if body == nil`, and the
other extractors return empty results, which shows the missing guard is a
slip rather than intent. -/
theorem C1_empty_operation_panics :
    Transform docNo200 = .error "nil pointer dereference" ∧
    getRsHeader docNo200 "/empty" "get" = .error "nil pointer dereference" ∧
    getRsBody docNo200 "/empty" "get" = .ok ([], docNo200) ∧
    getRqBody docNo200 "/empty" "get" = .ok ([], docNo200) ∧
    getRqBodyExample docNo200 "/empty" "get" = .ok [] ∧
    getParameter docNo200 "/empty" "get" "header" = .ok [] ∧
    getPathParameter docNo200 "/empty" = .ok [] := by
  decide

/-! ## C3 -/

/-- A wider ordering example: two composite and two scalar properties,
interleaved in declaration order, with a nested property under the object
child. -/
def schemaB : Schema :=
  .mk "r" "object" "" false []
    [("z", .mk "" "object" "" false [] [("q", .mk "" "string" "" false [] [] none)] none),
     ("a", .mk "" "string" "" false [] [] none),
     ("m", .mk "" "array" "" false [] [] (some (.mk "" "string" "" false [] [] none))),
     ("b", .mk "" "boolean" "" false [] [] none)] none

/-- C3: flattening is depth-first with the node's own record emitted before
all of its descendants, and at each nesting level object/array-typed
properties are emitted after scalar properties.  Concretely, flattening
`a: {b: string, c: {d: number}}` (with `c` listed first) yields
`[a(object), b(string,parent=a), c(object,parent=a), d(number,parent=c)]`;
on `schemaB` the two scalars `a`, `b` precede the composites `z` (whose
descendant `q` follows it immediately, before the next composite `m`); and
in general the record of an object node is the head of its flattened
output. -/
theorem C3_flatten_depth_first_order :
    ((traverse schemaA "root").1 =
      [{ parent := "root", name := "a", location := "body", dataType := "object",
         required := true, description := "" },
       { parent := "a", name := "b", location := "body", dataType := "string",
         required := false, description := "" },
       { parent := "a", name := "c", location := "body", dataType := "object",
         required := false, description := "" },
       { parent := "c", name := "d", location := "body", dataType := "number",
         required := false, description := "" }]) ∧
    ((traverse schemaB "root").1 =
      [{ parent := "root", name := "r", location := "body", dataType := "object",
         required := true, description := "" },
       { parent := "r", name := "a", location := "body", dataType := "string",
         required := false, description := "" },
       { parent := "r", name := "b", location := "body", dataType := "boolean",
         required := false, description := "" },
       { parent := "r", name := "z", location := "body", dataType := "object",
         required := false, description := "" },
       { parent := "z", name := "q", location := "body", dataType := "string",
         required := false, description := "" },
       { parent := "r", name := "m", location := "body", dataType := "array[string]",
         required := false, description := "" }]) ∧
    (∀ s t n p, lower s.ty = "object" →
      (traverseT s t n p).1.head? =
        some { parent := p, name := t, location := "body", dataType := lower s.ty,
               required := !n, description := s.descr }) := by
  refine ⟨by decide, by decide, ?_⟩
  intro s t n p h
  rcases s with ⟨ti, ty, d, nu, req, props, items⟩
  simp only [Schema.ty] at h
  rw [traverseT_object ti ty d nu req props items t n p h]
  rfl

/-- Witness for the general conjunct of C3 at the concrete example
schema. -/
theorem C3_flatten_depth_first_order_witness :
    lower schemaA.ty = "object" ∧
    (traverseT schemaA "a" false "root").1.head? =
      some { parent := "root", name := "a", location := "body",
             dataType := lower schemaA.ty, required := !false, description := schemaA.descr } :=
  ⟨by decide, C3_flatten_depth_first_order.2.2 schemaA "a" false "root" (by decide)⟩

/-! ## C4 -/

/-- The head record emitted for a node flattened with title `k` and the
nullable override computed from required-list `req`, for every recognized
non-array type: its required flag is exactly `contains req k` (the code
writes `Nullable = !contains(required, key)` into the property and the
record then gets `Required = !Nullable`). -/
theorem traverseT_head_required (p : Schema) (k : String) (req : List String) (par : String)
    (h : lower p.ty = "object" ∨ lower p.ty = "string" ∨ lower p.ty = "number" ∨
         lower p.ty = "integer" ∨ lower p.ty = "boolean") :
    (traverseT p k (!(contains req k)) par).1.head? =
      some { parent := par, name := k, location := "body", dataType := lower p.ty,
             required := contains req k, description := p.descr } := by
  rcases p with ⟨ti, ty, d, nu, req', props, items⟩
  simp only [Schema.ty, Schema.descr] at h ⊢
  rcases h with h | h | h | h | h
  · rw [traverseT_object ti ty d nu req' props items k (!(contains req k)) par h]
    simp
  · rw [traverseT_scalar ti ty d nu req' props items k (!(contains req k)) par (.inl h)]
    simp
  · rw [traverseT_scalar ti ty d nu req' props items k (!(contains req k)) par
      (.inr (.inl h))]
    simp
  · rw [traverseT_scalar ti ty d nu req' props items k (!(contains req k)) par
      (.inr (.inr (.inl h)))]
    simp
  · rw [traverseT_scalar ti ty d nu req' props items k (!(contains req k)) par
      (.inr (.inr (.inr h)))]
    simp

/-- Each declared property yields its entry in `traverseList`. -/
theorem mem_traverseList (props : List (String × Schema)) (req : List String) (par : String)
    (k : String) (p : Schema) (h : (k, p) ∈ props) :
    ((k, (traverseT p k (!(contains req k)) par).2),
      (traverseT p k (!(contains req k)) par).1) ∈ traverseList props req par := by
  induction props with
  | nil => cases h
  | cons hd tl ih =>
    rcases hd with ⟨k0, p0⟩
    rw [traverseList]
    rcases List.mem_cons.mp h with h0 | h0
    · obtain ⟨rfl, rfl⟩ := Prod.mk.inj h0
      exact List.mem_cons_self _ _
    · exact List.mem_cons_of_mem _ (ih h0)

/-- C4: a property's record is required exactly when the property's name
occurs in the enclosing schema's required-name list.  Concretely, with
required-list `["id"]` over properties `id` and `name`, `id` is required and
`name` is not; in general, the head record of a property flattened under
required-list `req` carries `required = contains req k`, and for every
object schema each declared property of recognized non-array type
contributes exactly such a record (named `k`, parented on the object's
title) to the flattened output. -/
theorem C4_required_propagation :
    ((traverse schemaReq "root").1 =
      [{ parent := "root", name := "o", location := "body", dataType := "object",
         required := true, description := "" },
       { parent := "o", name := "id", location := "body", dataType := "integer",
         required := true, description := "" },
       { parent := "o", name := "name", location := "body", dataType := "string",
         required := false, description := "" }]) ∧
    (∀ p k req par,
      (lower p.ty = "object" ∨ lower p.ty = "string" ∨ lower p.ty = "number" ∨
       lower p.ty = "integer" ∨ lower p.ty = "boolean") →
      (traverseT p k (!(contains req k)) par).1.head? =
        some { parent := par, name := k, location := "body", dataType := lower p.ty,
               required := contains req k, description := p.descr }) ∧
    (∀ ti ty d nu req props items t n par k p,
      lower ty = "object" → (k, p) ∈ props →
      (lower p.ty = "object" ∨ lower p.ty = "string" ∨ lower p.ty = "number" ∨
       lower p.ty = "integer" ∨ lower p.ty = "boolean") →
      { parent := t, name := k, location := "body", dataType := lower p.ty,
        required := contains req k, description := p.descr } ∈
        (traverseT (.mk ti ty d nu req props items) t n par).1) := by
  refine ⟨by decide, fun p k req par h => traverseT_head_required p k req par h, ?_⟩
  intro ti ty d nu req props items t n par k p hobj hin hp
  rw [traverseT_object ti ty d nu req props items t n par hobj]
  refine List.mem_cons_of_mem _ ?_
  rw [List.mem_flatten]
  refine ⟨(traverseT p k (!(contains req k)) t).1, ?_, ?_⟩
  · rw [List.mem_map]
    refine ⟨((k, (traverseT p k (!(contains req k)) t).2),
             (traverseT p k (!(contains req k)) t).1), ?_, rfl⟩
    have hmem := mem_traverseList props req t k p hin
    rw [List.mem_append]
    by_cases hc : isComposite (traverseT p k (!(contains req k)) t).2
    · right
      rw [List.mem_filter]
      exact ⟨hmem, hc⟩
    · left
      rw [List.mem_filter]
      exact ⟨hmem, by simpa using hc⟩
  · refine List.mem_of_mem_head? ?_
    rw [Option.mem_def, traverseT_head_required p k req t hp]

/-- Witness for the general conjuncts of C4 at the concrete example: the
`id` property of `schemaReq`. -/
theorem C4_required_propagation_witness :
    ((lower (Schema.mk "" "integer" "" false [] [] none : Schema).ty = "object" ∨
      lower (Schema.mk "" "integer" "" false [] [] none : Schema).ty = "string" ∨
      lower (Schema.mk "" "integer" "" false [] [] none : Schema).ty = "number" ∨
      lower (Schema.mk "" "integer" "" false [] [] none : Schema).ty = "integer" ∨
      lower (Schema.mk "" "integer" "" false [] [] none : Schema).ty = "boolean") ∧
     (traverseT (Schema.mk "" "integer" "" false [] [] none) "id"
         (!(contains ["id"] "id")) "o").1.head? =
       some { parent := "o", name := "id", location := "body", dataType := "integer",
              required := contains ["id"] "id", description := "" }) ∧
    { parent := "o", name := "id", location := "body", dataType := "integer",
      required := contains ["id"] "id", description := "" } ∈
      (traverseT (Schema.mk "o" "object" "" false ["id"]
          [("id", Schema.mk "" "integer" "" false [] [] none),
           ("name", Schema.mk "" "string" "" false [] [] none)] none) "o" false "root").1 :=
  ⟨⟨by decide,
    C4_required_propagation.2.1 (Schema.mk "" "integer" "" false [] [] none) "id" ["id"] "o"
      (by decide)⟩,
   C4_required_propagation.2.2 "o" "object" "" false ["id"]
     [("id", Schema.mk "" "integer" "" false [] [] none),
      ("name", Schema.mk "" "string" "" false [] [] none)] none "o" false "root" "id"
     (Schema.mk "" "integer" "" false [] [] none) (by decide) (by decide) (by decide)⟩

/-! ## C5 -/

/-- The §8 array-of-objects example: `items: array of {id: integer}`. -/
def schemaArrObj : Schema :=
  .mk "items" "array" "" false [] []
    (some (.mk "" "object" "" false []
      [("id", .mk "" "integer" "" false [] [] none)] none))

/-- C5: flattening an array whose item schema is object-typed emits exactly
one record for the array itself followed by the flattened properties of the
item schema, attached under the array node's own name, with no intermediate
record for the anonymous item schema.  Concretely
`items: array of {id: integer}` yields exactly the two records
`items (array[object])` and `id (integer, parent=items)`; in general the
output of such a node is the array record consed directly onto the item
properties' records. -/
theorem C5_array_of_objects :
    ((traverse schemaArrObj "root").1 =
      [{ parent := "root", name := "items", location := "body",
         dataType := "array[object]", required := true, description := "" },
       { parent := "items", name := "id", location := "body", dataType := "integer",
         required := false, description := "" }]) ∧
    (∀ ti ty d nu req props it1 it3 it4 itreq itprops ititems t n p,
      lower ty = "array" →
      (traverseT (.mk ti ty d nu req props
          (some (.mk it1 "object" it3 it4 itreq itprops ititems))) t n p).1 =
        { parent := p, name := t, location := "body", dataType := "array[object]",
          required := !n, description := d } ::
          (((traverseList itprops itreq t).filter (fun e => !(isComposite e.1.2)) ++
            (traverseList itprops itreq t).filter (fun e => isComposite e.1.2)).map
              (fun e => e.2)).flatten) := by
  constructor
  · decide
  · intro ti ty d nu req props it1 it3 it4 itreq itprops ititems t n p h
    rw [traverseT_array_object ti ty d nu req props it1 it3 it4 itreq itprops ititems t n p h]
    rfl

/-- Witness for the general conjunct of C5 at the concrete example. -/
theorem C5_array_of_objects_witness :
    lower "array" = "array" ∧
    (traverseT (.mk "items" "array" "" false [] []
        (some (.mk "" "object" "" false []
          [("id", .mk "" "integer" "" false [] [] none)] none))) "items" false "root").1 =
      { parent := "root", name := "items", location := "body", dataType := "array[object]",
        required := !false, description := "" } ::
        (((traverseList [("id", .mk "" "integer" "" false [] [] none)] [] "items").filter
            (fun e => !(isComposite e.1.2)) ++
          (traverseList [("id", .mk "" "integer" "" false [] [] none)] [] "items").filter
            (fun e => isComposite e.1.2)).map (fun e => e.2)).flatten :=
  ⟨by decide,
   C5_array_of_objects.2 "items" "array" "" false [] [] "" "" false []
     [("id", .mk "" "integer" "" false [] [] none)] none "items" false "root" (by decide)⟩

/-! ## C6 -/

/-- An array schema whose item schema carries the mixed-case type tag
`String`. -/
def schemaArrCap : Schema :=
  .mk "x" "array" "" false [] [] (some (.mk "" "String" "" false [] [] none))

/-- C6 counterexample: the code builds the array type tag with
`fmt.Sprintf("array[%s]", schema.Value.Items.Value.Type)`, copying the item
type verbatim, while the claim requires the item tag in lowercase: for an
item type `String` the emitted tag is `array[String]`, not the
`array[string]` the claim prescribes. -/
theorem C6_item_type_not_lowercased :
    (traverse schemaArrCap "root").1 =
      [{ parent := "root", name := "x", location := "body", dataType := "array[String]",
         required := true, description := "" }] ∧
    lower "String" = "string" ∧
    "array[String]" ≠ "array[" ++ lower "String" ++ "]" := by
  decide

/-- The §8 array-of-primitives example: `tags: array of string`. -/
def schemaTags : Schema :=
  .mk "tags" "array" "" false [] [] (some (.mk "" "string" "" false [] [] none))

/-- C6 (amended): the record emitted for an array node carries the type tag
`array[<item-type>]` with the item schema's type tag copied verbatim (which
coincides with the claim's lowercase tag exactly when the document already
uses lowercase tags); an array of primitives yields exactly that one record
and no descendants.  Concretely `tags: array of string` yields the single
record `tags : array[string]`. -/
theorem C6_array_type_tag_verbatim :
    ((traverse schemaTags "root").1 =
      [{ parent := "root", name := "tags", location := "body", dataType := "array[string]",
         required := true, description := "" }]) ∧
    (∀ ti ty d nu req props it1 it2 it3 it4 itreq itprops ititems t n p,
      lower ty = "array" →
      (traverseT (.mk ti ty d nu req props
          (some (.mk it1 it2 it3 it4 itreq itprops ititems))) t n p).1.head? =
        some { parent := p, name := t, location := "body",
               dataType := "array[" ++ it2 ++ "]", required := !n, description := d }) ∧
    (∀ ti ty d nu req props it1 it2 it3 it4 itreq itprops ititems t n p,
      lower ty = "array" → (it2 == "object") = false →
      (traverseT (.mk ti ty d nu req props
          (some (.mk it1 it2 it3 it4 itreq itprops ititems))) t n p).1 =
        [{ parent := p, name := t, location := "body",
           dataType := "array[" ++ it2 ++ "]", required := !n, description := d }]) := by
  refine ⟨by decide, ?_, ?_⟩
  · intro ti ty d nu req props it1 it2 it3 it4 itreq itprops ititems t n p h
    by_cases hobj : it2 = "object"
    · subst hobj
      rw [traverseT_array_object ti ty d nu req props it1 it3 it4 itreq itprops ititems t n p h]
      rfl
    · have hit : (it2 == "object") = false := by simp [hobj]
      rw [traverseT_array_plain ti ty d nu req props it1 it2 it3 it4 itreq itprops ititems
        t n p h hit]
      rfl
  · intro ti ty d nu req props it1 it2 it3 it4 itreq itprops ititems t n p h hit
    rw [traverseT_array_plain ti ty d nu req props it1 it2 it3 it4 itreq itprops ititems
      t n p h hit]

/-- Witness for the general conjuncts of C6 at the concrete `tags`
example. -/
theorem C6_array_type_tag_verbatim_witness :
    lower "array" = "array" ∧ (("string" : String) == "object") = false ∧
    (traverseT (.mk "tags" "array" "" false [] []
        (some (.mk "" "string" "" false [] [] none))) "tags" false "root").1.head? =
      some { parent := "root", name := "tags", location := "body",
             dataType := "array[" ++ "string" ++ "]", required := !false, description := "" } ∧
    (traverseT (.mk "tags" "array" "" false [] []
        (some (.mk "" "string" "" false [] [] none))) "tags" false "root").1 =
      [{ parent := "root", name := "tags", location := "body",
         dataType := "array[" ++ "string" ++ "]", required := !false, description := "" }] :=
  ⟨by decide, by decide,
   C6_array_type_tag_verbatim.2.1 "tags" "array" "" false [] [] "" "string" "" false [] [] none
     "tags" false "root" (by decide),
   C6_array_type_tag_verbatim.2.2 "tags" "array" "" false [] [] "" "string" "" false [] [] none
     "tags" false "root" (by decide) (by decide)⟩

/-! ## C2 -/

mutual

/-- Erases every `title` and `nullable` field of a schema tree: the two
fields `traverse` writes.  Two schemas with the same `scrub` image differ at
most in titles and nullable flags. -/
def scrub (s : Schema) : Schema :=
  match s with
  | .mk _ ty d _ req props items => .mk "" ty d false req (scrubProps props) (scrubItems items)
termination_by structural s

def scrubProps (l : List (String × Schema)) : List (String × Schema) :=
  match l with
  | [] => []
  | (k, p) :: rest => (k, scrub p) :: scrubProps rest
termination_by structural l

def scrubItems (o : Option Schema) : Option Schema :=
  match o with
  | none => none
  | some s => some (scrub s)
termination_by structural o

end

/-- Frame property of the mutation: the schema state `traverseT` leaves
behind differs from the input only in `title`/`nullable` fields. -/
theorem scrub_traverseT :
    ∀ s t n p, scrub (traverseT s t n p).2 = scrub s := by
  refine traverseT.induct
    (fun s t n p => scrub (traverseT s t n p).2 = scrub s)
    (fun l req par => scrubProps ((traverseList l req par).map (fun e => e.1)) = scrubProps l)
    ?_ ?_ ?_ ?_ ?_ ?_ ?_ ?_
  · intro t nb par a1 ty a3 a4 req props items h ih
    rw [traverseT_eq, if_pos h]
    simp only [scrub, ih]
  · intro t nb par a1 ty a3 a4 req props h1 h2
    rw [traverseT_eq, if_neg h1, if_pos h2]
    show scrub (Schema.mk t ty a3 nb req props none) = _
    simp only [scrub]
  · intro t nb par a1 ty a3 a4 req props h1 h2 it1 it2 it3 it4 itreq itprops ititems hb ih
    rw [traverseT_eq, if_neg h1, if_pos h2]
    simp only [hb, if_true, scrub, scrubItems, ih]
  · intro t nb par a1 ty a3 a4 req props h1 h2 it1 it2 it3 it4 itreq itprops ititems hb
    rw [traverseT_eq, if_neg h1, if_pos h2]
    simp only [hb, if_false, scrub]
    simp at hb
    simp [hb]
  · intro t nb par a1 ty a3 a4 req props items h1 h2 h3
    rw [traverseT_eq, if_neg h1, if_neg h2, if_pos h3]
    show scrub (Schema.mk t ty a3 nb req props items) = _
    simp only [scrub]
  · intro t nb par a1 ty a3 a4 req props items h1 h2 h3
    rw [traverseT_eq, if_neg h1, if_neg h2, if_neg h3]
    show scrub (Schema.mk t ty a3 nb req props items) = _
    simp only [scrub]
  · intro req par
    rfl
  · intro req par k p rest ih1 ih2
    rw [traverseList]
    simp only [List.map_cons, scrubProps, ih1, ih2]

/-- The request-body schema of the mutation example: an untitled object with
a single untitled, non-nullable `id` property. -/
def objMut : Schema :=
  .mk "" "object" "" false [] [("id", .mk "" "integer" "" false [] [] none)] none

/-- The schema state after `Transform`: the `id` property has been re-titled
to its key and its nullable flag set to `true` (it is not in the required
list). -/
def objMutPost : Schema :=
  .mk "" "object" "" false [] [("id", .mk "id" "integer" "" true [] [] none)] none

/-- `POST /w` with a JSON request body carrying `objMut` and an empty `200`
response. -/
def opMut : Operation :=
  { summary := "s", descr := "", parameters := [],
    requestBody := some ⟨[("application/json", ⟨objMut, []⟩)]⟩,
    responses := [("200", ⟨[], []⟩)] }

/-- The mutation-witnessing document. -/
def docMut : Swagger :=
  { info := ⟨"t", "v", ""⟩, paths := [("/w", { post := some opMut })], securitySchemes := [] }

/-- `opMut` with the mutated body schema. -/
def opMutPost : Operation :=
  { summary := "s", descr := "", parameters := [],
    requestBody := some ⟨[("application/json", ⟨objMutPost, []⟩)]⟩,
    responses := [("200", ⟨[], []⟩)] }

/-- `docMut` after `Transform`: identical except that the body schema is
`objMutPost`. -/
def docMutPost : Swagger :=
  { info := ⟨"t", "v", ""⟩, paths := [("/w", { post := some opMutPost })],
    securitySchemes := [] }

/-- The design `Transform` produces for `docMut`. -/
def designMut : Design :=
  { info := ⟨"t", "v", ""⟩,
    resources := [
      { resourceDefinition := "s", descr := "", endpoint := "/w",
        transportProtocol := "HTTPS", requestVerb := "post",
        content := { rqBody := [("application/json",
          [{ parent := "root", name := "", location := "body", dataType := "object",
             required := true, description := "" },
           { parent := "", name := "id", location := "body", dataType := "integer",
             required := false, description := "" }])] } }] }

/-- C2 counterexample: `Transform` is not a pure read of the document — for
`docMut` the document that comes out of the run is not the document that
went in (the `id` property's title and nullable flag were overwritten), so
the input cannot be treated as read-only. -/
theorem C2_transform_mutates_input :
    (Transform docMut).map Prod.snd ≠ Except.ok docMut := by
  decide

/-- C2 (amended): `Transform` mutates the input document in place: while
flattening a body schema, each property's `title` is overwritten with its
key and its `nullable` flag with the negation of required-membership.
These two fields are the only thing it changes (`scrub` erases exactly
them, and the post-state of every `traverseT` call has the same `scrub`
image as its input); on `docMut` the run succeeds and returns the mutated
`docMutPost`, which differs from `docMut` precisely in the `id` property's
title/nullable. -/
theorem C2_transform_mutates_only_title_nullable :
    (∀ s t n p, scrub (traverseT s t n p).2 = scrub s) ∧
    Transform docMut = Except.ok (designMut, docMutPost) ∧
    docMutPost ≠ docMut ∧ scrub objMutPost = scrub objMut :=
  ⟨scrub_traverseT, by decide, by decide, by decide⟩

end SpecGo



namespace SpecGo

/-! ## C7 -/

/-- A path-level header parameter declaration. -/
def paramXTrace : ParamDecl :=
  { name := "X-Trace", inLoc := "header", schemaType := "string", required := true, descr := "" }

/-- An operation declaring no parameters of its own (with a `200` response
so the pipeline can finish). -/
def opNoParams : Operation :=
  { summary := "", descr := "", parameters := [], requestBody := none,
    responses := [("200", ⟨[], []⟩)] }

/-- The path item of `docPathParam`. -/
def piT : PathItem := { parameters := [paramXTrace], get := some opNoParams }

/-- A document whose `/t` path declares `X-Trace` at path level (applying,
per the OpenAPI inheritance rule, to its GET operation) while the operation
itself declares no parameters. -/
def docPathParam : Swagger :=
  { info := ⟨"", "", ""⟩, paths := [("/t", piT)], securitySchemes := [] }

/-- C7 counterexample: the parameter extractor scans only the
operation-level list, so the path-level header parameter `X-Trace` — which
the claim requires to appear in the header result — is absent from
`getParameter`'s header result; it surfaces only through
`getPathParameter`, which files it under request-path regardless of its
declared location. -/
theorem C7_path_level_parameters_not_merged :
    (lookup docPathParam.paths "/t").map (fun pi => pi.parameters) = some [paramXTrace] ∧
    lower paramXTrace.inLoc = "header" ∧
    getParameter docPathParam "/t" "get" "header" = .ok [] ∧
    getPathParameter docPathParam "/t" =
      .ok [{ parent := "", name := "X-Trace", location := "header", dataType := "string",
             required := true, description := "" }] := by
  decide

/-- C7 (amended): for a resolvable operation, `getParameter` returns exactly
the operation-level declared parameters whose location matches the request
case-insensitively, with location and schema type lowercased in the record;
path-level declarations are not merged into this result — they are
extracted separately by `getPathParameter`, which returns every path-level
parameter (whatever its location, not lowercased) and does not depend on the
method. -/
theorem C7_operation_level_parameters_only :
    (∀ doc endpoint m loc op, operationOf doc endpoint m = .ok (some op) →
      getParameter doc endpoint m loc =
        .ok ((op.parameters.filter (fun v => lower v.inLoc == lower loc)).map
          (fun v => { parent := "", name := v.name, location := lower v.inLoc,
                      dataType := lower v.schemaType, required := v.required,
                      description := v.descr }))) ∧
    (∀ doc endpoint pi, lookup doc.paths endpoint = some pi →
      getPathParameter doc endpoint =
        .ok (pi.parameters.map (fun v =>
          { parent := "", name := v.name, location := v.inLoc, dataType := v.schemaType,
            required := v.required, description := v.descr }))) := by
  constructor
  · intro doc endpoint m loc op h
    simp only [getParameter, h]
  · intro doc endpoint pi h
    simp only [getPathParameter, h]

/-- Witness for C7's amended theorem at `docPathParam`. -/
theorem C7_operation_level_parameters_only_witness :
    (operationOf docPathParam "/t" "get" = .ok (some opNoParams) ∧
      getParameter docPathParam "/t" "get" "header" =
        .ok ((opNoParams.parameters.filter
            (fun v => lower v.inLoc == lower "header")).map
          (fun v => { parent := "", name := v.name, location := lower v.inLoc,
                      dataType := lower v.schemaType, required := v.required,
                      description := v.descr }))) ∧
    (lookup docPathParam.paths "/t" = some piT ∧
      getPathParameter docPathParam "/t" =
        .ok (piT.parameters.map (fun v =>
          { parent := "", name := v.name, location := v.inLoc, dataType := v.schemaType,
            required := v.required, description := v.descr }))) :=
  ⟨⟨by decide,
    C7_operation_level_parameters_only.1 docPathParam "/t" "get" "header" opNoParams
      (by decide)⟩,
   ⟨by decide,
    C7_operation_level_parameters_only.2 docPathParam "/t" piT (by decide)⟩⟩

end SpecGo

namespace SpecGo

/-! ## C8 -/

/-- C8: the assembler produces one Resource per (path, declared operation)
pair: the resource count is the sum over paths of the number of declared
operations, and every produced Resource carries transport protocol
`"HTTPS"` and a lowercased standard-method verb — a path item can only
declare the nine standard HTTP methods, so no Resource with any other verb
ever exists. -/
theorem C8_resource_per_operation :
    (∀ doc : Swagger, (getResource doc).length =
      (doc.paths.map (fun pv => (operationsOf pv.2).length)).sum) ∧
    (∀ (doc : Swagger) (r : Resource), r ∈ getResource doc →
      r.transportProtocol = "HTTPS" ∧
      r.requestVerb ∈ ["connect", "delete", "get", "head", "options", "patch",
                       "post", "put", "trace"]) := by
  constructor
  · intro doc
    simp [getResource, List.length_flatten, List.map_map, Function.comp_def, List.length_map]
  · intro doc r hr
    simp only [getResource, List.mem_flatten, List.mem_map] at hr
    obtain ⟨l, hl, hrl⟩ := hr
    obtain ⟨pv, hpv, rfl⟩ := hl
    rw [List.mem_map] at hrl
    obtain ⟨mo, hmo, rfl⟩ := hrl
    refine ⟨rfl, ?_⟩
    simp only [operationsOf, List.mem_filterMap] at hmo
    obtain ⟨kv, hkv, hsome⟩ := hmo
    rw [Option.map_eq_some'] at hsome
    obtain ⟨op, hop, hmk⟩ := hsome
    show lower mo.1 ∈ _
    rw [← hmk]
    simp only [List.mem_cons, List.not_mem_nil, or_false] at hkv
    rcases hkv with h | h | h | h | h | h | h | h | h <;> subst h <;> dsimp only <;> decide

/-- The `HEAD` operation of the C8 witness document. -/
def opHd : Operation :=
  { summary := "h", descr := "", parameters := [], requestBody := none, responses := [] }

/-- A document declaring GET and HEAD on one path. -/
def docTwoOps : Swagger :=
  { info := ⟨"", "", ""⟩, paths := [("/a", { get := some opNoParams, head := some opHd })],
    securitySchemes := [] }

/-- The Resource the assembler builds for `HEAD /a`. -/
def rHd : Resource :=
  { resourceDefinition := "h", descr := "", endpoint := "/a",
    transportProtocol := "HTTPS", requestVerb := "head", content := {} }

/-- Witness for C8 at a concrete document with a GET and a HEAD
operation. -/
theorem C8_resource_per_operation_witness :
    ((getResource docTwoOps).length =
      (docTwoOps.paths.map (fun pv => (operationsOf pv.2).length)).sum) ∧
    (rHd.transportProtocol = "HTTPS" ∧
      rHd.requestVerb ∈ ["connect", "delete", "get", "head", "options", "patch",
                         "post", "put", "trace"]) :=
  ⟨C8_resource_per_operation.1 docTwoOps,
   C8_resource_per_operation.2 docTwoOps rHd (by decide)⟩

/-! ## C9 -/

/-- `Except.bind` on a success, for unfolding the `do`-chains below. -/
theorem except_bind_ok {ε α β : Type} (a : α) (f : α → Except ε β) :
    (Except.ok a : Except ε α) >>= f = f a := rfl

/-- Full characterization of `fillResource` when every extraction step
succeeds. -/
theorem fillResource_eq (doc : Swagger) (r : Resource)
    (ps hs qs : List Parameter) (bs : List (String × List Parameter))
    (bes : List (String × List (String × String))) (rhs : List Parameter)
    (rbs : List (String × List Parameter))
    (res : List (String × List (String × String))) (doc1 doc2 : Swagger)
    (h1 : getPathParameter doc r.endpoint = .ok ps)
    (h2 : getParameter doc r.endpoint r.requestVerb "header" = .ok hs)
    (h3 : getParameter doc r.endpoint r.requestVerb "query" = .ok qs)
    (h4 : getRqBody doc r.endpoint r.requestVerb = .ok (bs, doc1))
    (h5 : getRqBodyExample doc1 r.endpoint r.requestVerb = .ok bes)
    (h6 : getRsHeader doc1 r.endpoint r.requestVerb = .ok rhs)
    (h7 : getRsBody doc1 r.endpoint r.requestVerb = .ok (rbs, doc2))
    (h8 : getRsBodyExample doc2 r.endpoint r.requestVerb = .ok res) :
    fillResource doc r = .ok
      ({ r with content :=
          { rqHeader := (getAuthentication doc).filter (fun p => p.location == "header") ++ hs,
            rqPath := ps,
            rqQuery := (getAuthentication doc).filter (fun p => p.location == "query") ++ qs,
            rqBody := bs, rqBodyExample := bes, rsHeader := rhs,
            rsBody := rbs, rsBodyExample := res } }, doc2) := by
  simp only [fillResource, h1, h2, h3, h4, h5, h6, h7, h8, except_bind_ok]

/-- The body-schema mutation of `getRqBody` never touches the
security-scheme declarations. -/
theorem getRqBody_preserves_schemes :
    ∀ (doc : Swagger) (ep m : String) (c : List (String × List Parameter)) (d1 : Swagger),
      getRqBody doc ep m = .ok (c, d1) → d1.securitySchemes = doc.securitySchemes := by
  intro doc ep m c d1 h
  rcases ho : operationOf doc ep m with e | o
  · simp only [getRqBody, ho] at h
    exact Except.noConfusion h
  · rcases o with _ | op
    · simp only [getRqBody, ho] at h
      obtain ⟨rfl, rfl⟩ := Prod.mk.inj (Except.ok.inj h)
      rfl
    · rcases hb : op.requestBody with _ | rb
      · simp only [getRqBody, ho, hb] at h
        obtain ⟨rfl, rfl⟩ := Prod.mk.inj (Except.ok.inj h)
        rfl
      · simp only [getRqBody, ho, hb] at h
        obtain ⟨rfl, rfl⟩ := Prod.mk.inj (Except.ok.inj h)
        rfl

/-- The response-schema mutation of `getRsBody` never touches the
security-scheme declarations. -/
theorem getRsBody_preserves_schemes :
    ∀ (doc : Swagger) (ep m : String) (c : List (String × List Parameter)) (d2 : Swagger),
      getRsBody doc ep m = .ok (c, d2) → d2.securitySchemes = doc.securitySchemes := by
  intro doc ep m c d2 h
  rcases ho : operationOf doc ep m with e | o
  · simp only [getRsBody, ho] at h
    exact Except.noConfusion h
  · rcases o with _ | op
    · simp only [getRsBody, ho] at h
      obtain ⟨rfl, rfl⟩ := Prod.mk.inj (Except.ok.inj h)
      rfl
    · rcases hb : lookup op.responses "200" with _ | resp
      · simp only [getRsBody, ho, hb] at h
        obtain ⟨rfl, rfl⟩ := Prod.mk.inj (Except.ok.inj h)
        rfl
      · simp only [getRsBody, ho, hb] at h
        obtain ⟨rfl, rfl⟩ := Prod.mk.inj (Except.ok.inj h)
        rfl

/-- C9: every security scheme contributes exactly one entry to every
Resource: when a Resource's content is filled, its request-header list
starts with one record per header-located scheme (in declaration order) and
its request-query list with one record per query-located scheme, each
`required=true` (every authentication record is required); the body
mutations preserve the scheme declarations, so every Resource of a run sees
the same scheme list. -/
theorem C9_security_scheme_classification (doc : Swagger) (r : Resource)
    (ps hs qs : List Parameter) (bs : List (String × List Parameter))
    (bes : List (String × List (String × String))) (rhs : List Parameter)
    (rbs : List (String × List Parameter))
    (res : List (String × List (String × String))) (doc1 doc2 : Swagger)
    (r' : Resource) (doc' : Swagger)
    (h1 : getPathParameter doc r.endpoint = .ok ps)
    (h2 : getParameter doc r.endpoint r.requestVerb "header" = .ok hs)
    (h3 : getParameter doc r.endpoint r.requestVerb "query" = .ok qs)
    (h4 : getRqBody doc r.endpoint r.requestVerb = .ok (bs, doc1))
    (h5 : getRqBodyExample doc1 r.endpoint r.requestVerb = .ok bes)
    (h6 : getRsHeader doc1 r.endpoint r.requestVerb = .ok rhs)
    (h7 : getRsBody doc1 r.endpoint r.requestVerb = .ok (rbs, doc2))
    (h8 : getRsBodyExample doc2 r.endpoint r.requestVerb = .ok res)
    (h9 : fillResource doc r = .ok (r', doc')) :
    r'.content.rqHeader =
      (doc.securitySchemes.filter (fun kv => (authRec kv).location == "header")).map authRec
        ++ hs ∧
    r'.content.rqQuery =
      (doc.securitySchemes.filter (fun kv => (authRec kv).location == "query")).map authRec
        ++ qs ∧
    (∀ pa ∈ getAuthentication doc, pa.required = true) ∧
    doc1.securitySchemes = doc.securitySchemes ∧
    doc2.securitySchemes = doc1.securitySchemes := by
  rw [fillResource_eq doc r ps hs qs bs bes rhs rbs res doc1 doc2
    h1 h2 h3 h4 h5 h6 h7 h8] at h9
  obtain ⟨h9a, h9b⟩ := Prod.mk.inj (Except.ok.inj h9)
  subst h9a
  refine ⟨?_, ?_, ?_, ?_, ?_⟩
  · show (getAuthentication doc).filter (fun p => p.location == "header") ++ hs = _
    rw [getAuthentication, List.filter_map]
    simp [Function.comp_def]
  · show (getAuthentication doc).filter (fun p => p.location == "query") ++ qs = _
    rw [getAuthentication, List.filter_map]
    simp [Function.comp_def]
  · intro pa hpa
    simp only [getAuthentication, List.mem_map] at hpa
    obtain ⟨kv, _, rfl⟩ := hpa
    rfl
  · exact getRqBody_preserves_schemes doc r.endpoint r.requestVerb bs doc1 h4
  · rw [getRqBody_preserves_schemes doc r.endpoint r.requestVerb bs doc1 h4,
      getRsBody_preserves_schemes doc1 r.endpoint r.requestVerb rbs doc2 h7]
    exact getRqBody_preserves_schemes doc r.endpoint r.requestVerb bs doc1 h4 |>.symm ▸ rfl

end SpecGo

namespace SpecGo

/-- A header-located security scheme. -/
def schemeHdr : SecurityScheme :=
  { ty := "apiKey", name := "X-Key", inLoc := "header", descr := "" }

/-- A query-located security scheme. -/
def schemeQry : SecurityScheme :=
  { ty := "apiKey", name := "token", inLoc := "query", descr := "" }

/-- A document declaring one header scheme and one query scheme. -/
def docAuth : Swagger :=
  { info := ⟨"", "", ""⟩, paths := [("/s", { get := some opNoParams })],
    securitySchemes := [("k", schemeHdr), ("q", schemeQry)] }

/-- The skeleton resource for `GET /s` of `docAuth`. -/
def rAuth : Resource :=
  { resourceDefinition := "", descr := "", endpoint := "/s",
    transportProtocol := "HTTPS", requestVerb := "get", content := {} }

/-- `rAuth` once filled: the header scheme in the request-header list and
the query scheme in the request-query list, both required. -/
def rAuthFilled : Resource :=
  { rAuth with content :=
      { rqHeader := [{ parent := "", name := "X-Key", location := "header",
                       dataType := "apiKey", required := true, description := "" }],
        rqQuery := [{ parent := "", name := "token", location := "query",
                      dataType := "apiKey", required := true, description := "" }] } }

/-- Witness for C9 at `docAuth`: each of the two schemes shows up exactly
once, classified by its location, and required. -/
theorem C9_security_scheme_classification_witness :
    rAuthFilled.content.rqHeader =
      (docAuth.securitySchemes.filter
        (fun kv => (authRec kv).location == "header")).map authRec ++ [] ∧
    rAuthFilled.content.rqQuery =
      (docAuth.securitySchemes.filter
        (fun kv => (authRec kv).location == "query")).map authRec ++ [] ∧
    (∀ pa ∈ getAuthentication docAuth, pa.required = true) ∧
    docAuth.securitySchemes = docAuth.securitySchemes ∧
    docAuth.securitySchemes = docAuth.securitySchemes :=
  C9_security_scheme_classification docAuth rAuth [] [] [] [] [] [] [] []
    docAuth docAuth rAuthFilled docAuth
    (by decide) (by decide) (by decide) (by decide) (by decide) (by decide) (by decide)
    (by decide) (by decide)

/-! ## C10 -/

/-- The `"200"` entry (if any) that the response extractors of an operation
consult: `error` when the path/operation cannot be resolved, `ok none` for
an unsupported method, and otherwise the result of looking up status
`"200"` in the operation's response map. -/
def resp200Of (doc : Swagger) (ep m : String) : Except String (Option (Option Response)) :=
  match operationOf doc ep m with
  | .error e => .error e
  | .ok none => .ok none
  | .ok (some op) => .ok (some (lookup op.responses "200"))

/-- The declared header of the `200` response in the C10 document. -/
def hdrRate : HeaderDecl := { schemaType := "integer", required := true, descr := "" }

/-- The declared header of the `404` response. -/
def hdrErr : HeaderDecl := { schemaType := "string", required := false, descr := "" }

/-- The JSON media type of the `404` response, carrying one example. -/
def media404 : MediaType := ⟨.mk "" "object" "" false [] [] none, [("err", "{}")]⟩

/-- The `200` response of the C10 document: one declared header, no
content. -/
def resp200C10 : Response := ⟨[("X-Rate", hdrRate)], []⟩

/-- The `404` response: its own header and a JSON example named `err`. -/
def resp404C10 : Response := ⟨[("X-Err", hdrErr)], [("application/json", media404)]⟩

/-- An operation declaring both a `200` and a `404` response. -/
def op404 : Operation :=
  { summary := "", descr := "", parameters := [], requestBody := none,
    responses := [("200", resp200C10), ("404", resp404C10)] }

/-- The C10 document. -/
def doc404 : Swagger :=
  { info := ⟨"", "", ""⟩, paths := [("/r", { get := some op404 })], securitySchemes := [] }

/-- `op404` with the `404` response emptied; the `200` entry untouched. -/
def op404b : Operation :=
  { summary := "", descr := "", parameters := [], requestBody := none,
    responses := [("200", resp200C10), ("404", ⟨[], []⟩)] }

/-- `doc404` with the `404` response emptied. -/
def doc404b : Swagger :=
  { info := ⟨"", "", ""⟩, paths := [("/r", { get := some op404b })], securitySchemes := [] }

/-- C10: `response_header` and `response_body` are computed exclusively
from the response declared under status `"200"`: any two documents whose
operations resolve to the same `"200"` entry get identical `getRsHeader`
results and identical `getRsBody` record maps, whatever their other
statuses declare.  On the concrete `doc404`, the `404` response's header
does not appear in the header result and its content contributes no body
records, yet its example does appear in `response_body_example` under key
`"404"`. -/
theorem C10_response_fields_from_200_only :
    (∀ (d1 d2 : Swagger) (ep m : String),
      resp200Of d1 ep m = resp200Of d2 ep m →
      getRsHeader d1 ep m = getRsHeader d2 ep m ∧
      (getRsBody d1 ep m).map Prod.fst = (getRsBody d2 ep m).map Prod.fst) ∧
    (getRsHeader doc404 "/r" "get" =
      .ok [{ parent := "", name := "X-Rate", location := "header", dataType := "integer",
             required := true, description := "" }] ∧
     (getRsBody doc404 "/r" "get").map Prod.fst = .ok [] ∧
     getRsBodyExample doc404 "/r" "get" = .ok [("404", [("err", "{}")])]) := by
  constructor
  · intro d1 d2 ep m h
    rcases ho1 : operationOf d1 ep m with e1 | o1 <;>
      rcases ho2 : operationOf d2 ep m with e2 | o2
    · simp only [resp200Of, ho1, ho2] at h
      cases h
      exact ⟨by simp [getRsHeader, ho1, ho2], by simp [getRsBody, ho1, ho2, Except.map]⟩
    · rcases o2 with _ | op2 <;> simp only [resp200Of, ho1, ho2] at h <;>
        exact Except.noConfusion h
    · rcases o1 with _ | op1 <;> simp only [resp200Of, ho1, ho2] at h <;>
        exact Except.noConfusion h
    · rcases o1 with _ | op1 <;> rcases o2 with _ | op2 <;>
        simp only [resp200Of, ho1, ho2] at h
      · exact ⟨by simp [getRsHeader, ho1, ho2], by simp [getRsBody, ho1, ho2, Except.map]⟩
      · exact Option.noConfusion (Except.ok.inj h)
      · exact Option.noConfusion (Except.ok.inj h)
      · have hl : lookup op1.responses "200" = lookup op2.responses "200" :=
          Option.some.inj (Except.ok.inj h)
        rcases hl1 : lookup op1.responses "200" with _ | resp <;> rw [hl1] at hl
        · exact ⟨by simp [getRsHeader, ho1, ho2, hl1, hl.symm],
                 by simp [getRsBody, ho1, ho2, hl1, hl.symm, Except.map]⟩
        · exact ⟨by simp [getRsHeader, ho1, ho2, hl1, hl.symm],
                 by simp [getRsBody, ho1, ho2, hl1, hl.symm, Except.map]⟩
  · refine ⟨by decide, by decide, by decide⟩

/-- Witness for C10's invariance at `doc404` versus `doc404b` (same `200`
entry, different `404` entry). -/
theorem C10_response_fields_from_200_only_witness :
    getRsHeader doc404 "/r" "get" = getRsHeader doc404b "/r" "get" ∧
    (getRsBody doc404 "/r" "get").map Prod.fst =
      (getRsBody doc404b "/r" "get").map Prod.fst :=
  C10_response_fields_from_200_only.1 doc404 doc404b "/r" "get" (by decide)

end SpecGo
